import Mathlib

/-!
Shallow embedding of the practice-and-retention core of the zungenrede-bot
repository (src/practice.rs, src/translation.rs): the vocabulary data
model, the response parser, the weighted item sampler, the answer matcher
and the per-chat practice-session step, together with theorems settling
the specification claims about them.

Strings are manipulated through their underlying character lists with
structurally recursive helpers, so that every definition evaluates inside
the kernel.  The external `strsim::jaro_winkler` metric is not part of
this repository; every matcher definition is therefore parametrised by
the similarity function `sim : String → String → ℚ`, exactly at the call
sites where the source invokes `jaro_winkler`.
-/

namespace Zungenrede

/-- Rust `char::is_whitespace`, restricted to the ASCII whitespace this
program's data actually contains (matches Lean's `Char.isWhitespace`). -/
def isWsChar (c : Char) : Bool :=
  c.isWhitespace

/-- Rust `char::to_lowercase`, restricted to the character repertoire the
program handles: ASCII letters, Latin-1/Latin-Extended letters with a
simple one-character lowering, and the Cyrillic block. -/
def rustLowerChar (c : Char) : Char :=
  if 'A' ≤ c && c ≤ 'Z' then Char.ofNat (c.toNat + 32)
  else if 0x410 ≤ c.toNat && c.toNat ≤ 0x42F then Char.ofNat (c.toNat + 32)
  else if c.toNat = 0x401 then Char.ofNat 0x451
  else if 0xC0 ≤ c.toNat && c.toNat ≤ 0xDE && c.toNat ≠ 0xD7 then Char.ofNat (c.toNat + 32)
  else c

/-- Rust `char::is_alphabetic`, restricted to the repertoire the program
handles: ASCII letters, Latin-1/Latin-Extended letters, Greek/Cyrillic. -/
def rustIsAlphabetic (c : Char) : Bool :=
  c.isAlpha
    || (0xC0 ≤ c.toNat && c.toNat ≤ 0x24F && c.toNat ≠ 0xD7 && c.toNat ≠ 0xF7)
    || (0x370 ≤ c.toNat && c.toNat ≤ 0x52F)

/-- The Cyrillic test used in `parse_translation_response`:
`matches!(c, '\u{0400}'..='\u{04FF}' | '\u{0500}'..='\u{052F}')`. -/
def isCyrillicChar (c : Char) : Bool :=
  (0x400 ≤ c.toNat && c.toNat ≤ 0x4FF) || (0x500 ≤ c.toNat && c.toNat ≤ 0x52F)

/-- Drop leading characters satisfying `p` (start of Rust `str::trim`). -/
def dropLeadingWhile (p : Char → Bool) (cs : List Char) : List Char :=
  cs.dropWhile p

/-- Rust `str::trim` on a character list. -/
def trimList (cs : List Char) : List Char :=
  ((cs.dropWhile isWsChar).reverse.dropWhile isWsChar).reverse

/-- Rust `str::trim_start_matches(ch)`: drop every leading occurrence of
the character `ch`. -/
def dropLeadingChar (ch : Char) (cs : List Char) : List Char :=
  cs.dropWhile (fun c => c = ch)

/-- Split a character list at every character satisfying `p`,
keeping empty segments (Rust `str::split`); always returns at least one
segment. -/
def splitChar (p : Char → Bool) : List Char → List (List Char)
  | [] => [[]]
  | c :: rest =>
    let r := splitChar p rest
    if p c then [] :: r
    else
      match r with
      | s :: ss => (c :: s) :: ss
      | [] => [[c]]

/-- Rust `str::split_whitespace`: split on whitespace runs, dropping
empty segments. -/
def splitWs (cs : List Char) : List (List Char) :=
  (splitChar isWsChar cs).filter (fun s => ¬ s.isEmpty)

/-- Does `cs` start with the character sequence `pre`? -/
def seqStartsWith : List Char → List Char → Bool
  | _, [] => true
  | [], _ :: _ => false
  | c :: cs, p :: ps => c = p && seqStartsWith cs ps

/-- Does `pat` occur contiguously inside `hay` (Rust `str::contains`)? -/
def seqContains : List Char → List Char → Bool
  | [], pat => pat.isEmpty
  | c :: rest, pat => seqStartsWith (c :: rest) pat || seqContains rest pat

/-- Join segments with a separator (Rust `[&str]::join`). -/
def joinSep (sep : List Char) : List (List Char) → List Char
  | [] => []
  | [x] => x
  | x :: y :: rest => x ++ sep ++ joinSep sep (y :: rest)

/-- Rust `str::lines`: split on `'\n'`, strip a trailing `'\r'` from each
line, and do not yield a final empty line. -/
def rustLines (cs : List Char) : List (List Char) :=
  let parts := splitChar (fun c => c = '\n') cs
  let parts := if parts.getLast? = some [] then parts.dropLast else parts
  parts.map (fun l => if l.getLast? = some '\r' then l.dropLast else l)

/-- Build a `String` back from a character list. -/
def strOf (cs : List Char) : String :=
  String.mk cs

/-- Rust `str::trim` at the `String` level. -/
def trimS (s : String) : String :=
  strOf (trimList s.data)

/-- Rust `str::to_lowercase` at the `String` level (restricted repertoire,
see `rustLowerChar`). -/
def rustLower (s : String) : String :=
  strOf (s.data.map rustLowerChar)

/-- Rust `str::contains` at the `String` level. -/
def containsSub (hay pat : String) : Bool :=
  seqContains hay.data pat.data

/-! ## Data model (`src/translation.rs`) -/

/-- `struct Example` from `src/translation.rs`. -/
structure Example where
  german : String
  russian : String
deriving DecidableEq, Repr

/-- `struct Translation` from `src/translation.rs`. -/
structure Translation where
  original : String
  translation : String
  grammar_forms : List String
  conjugations : Option (List String)
  examples : List Example
  correct_answers : Nat
  wrong_answers : Nat
deriving DecidableEq, Repr

/-- `impl Default for Translation` from `src/translation.rs`. -/
def Translation.default : Translation :=
  { original := ""
    translation := ""
    grammar_forms := []
    conjugations := none
    examples := []
    correct_answers := 0
    wrong_answers := 0 }

instance : Inhabited Translation := ⟨Translation.default⟩

/-- `Translation::is_valid` from `src/translation.rs`. -/
def Translation.is_valid (t : Translation) : Bool :=
  ¬ (trimS t.original).isEmpty
    && ¬ (trimS t.translation).isEmpty
    && t.examples.all
        (fun e => ¬ (trimS e.german).isEmpty && ¬ (trimS e.russian).isEmpty)

/-! ## Answer matcher (`src/practice.rs`) -/

/-- `SIMILARITY_THRESHOLD` from `src/practice.rs` (the rational `0.85`,
written with `mkRat` so that comparisons against it evaluate). -/
def SIMILARITY_THRESHOLD : ℚ := mkRat 85 100

/-- `STATS_INTERVAL` from `src/practice.rs`. -/
def STATS_INTERVAL : Nat := 10

/-- `ARTICLES` from `src/practice.rs`. -/
def ARTICLES : List String := ["der", "die", "das"]

/-- `enum AnswerResult` from `src/practice.rs`; the similarity carried by
`AlmostCorrect` is modelled as a rational. -/
inductive AnswerResult where
  | Correct
  | AlmostCorrect (expected : String) (similarity : ℚ)
  | WrongArticle (expected : String)
  | Wrong (expected : String)
deriving DecidableEq, Repr

/-- `struct AnswerCheck` from `src/practice.rs`. -/
structure AnswerCheck where
  result : AnswerResult
  feedback : String
deriving DecidableEq, Repr

/-- `fn normalize` from `src/practice.rs`: trim, lowercase, keep only
alphabetic and whitespace characters. -/
def normalize (text : String) : String :=
  strOf (((trimList text.data).map rustLowerChar).filter
    (fun c => rustIsAlphabetic c || isWsChar c))

/-- The accepted-variant list built by `check_russian_answer`: every
comma-separated segment of `translation`, normalized, followed by the
normalized Russian side of every example. -/
def russianVariants (t : Translation) : List String :=
  (splitChar (fun c => c = ',') t.translation.data).map (fun s => normalize (strOf s))
    ++ t.examples.map (fun ex => normalize ex.russian)

/-- `.map(|variant| jaro_winkler(&answer, variant)).max_by(..).unwrap_or(0.0)`:
the best similarity over a variant list, `0` when the list is empty. -/
def bestSim (sim : String → String → ℚ) (answer : String) (variants : List String) : ℚ :=
  ((variants.map (fun v => sim answer v)).max?).getD 0

/-- `fn check_russian_answer` from `src/practice.rs` (its `answer`
argument is already normalized by `check_answer`). -/
def check_russian_answer (sim : String → String → ℚ) (answer : String)
    (t : Translation) : AnswerCheck :=
  let expected := normalize t.translation
  let expected_variants := russianVariants t
  if expected_variants.contains answer || answer == expected then
    { result := .Correct, feedback := "" }
  else
    let best_match := bestSim sim answer expected_variants
    if best_match > SIMILARITY_THRESHOLD then
      { result := .AlmostCorrect t.translation best_match, feedback := "" }
    else
      { result := .Wrong t.translation, feedback := "" }

/-- `fn check_german_noun_answer` from `src/practice.rs`. -/
def check_german_noun_answer (sim : String → String → ℚ) (answer : String)
    (t : Translation) : AnswerCheck :=
  let expected_article := ((t.grammar_forms.head?).map (fun a => rustLower (trimS a))).getD ""
  let expected_noun := normalize t.original
  let expected := expected_article ++ " " ++ expected_noun
  match splitWs answer.data with
  | article :: noun :: _ =>
    if rustLower (strOf article) ≠ expected_article then
      { result := .WrongArticle expected, feedback := "" }
    else
      let similarity := sim (normalize (strOf noun)) expected_noun
      if similarity > SIMILARITY_THRESHOLD then
        { result := .Correct, feedback := "" }
      else
        { result := .AlmostCorrect expected similarity, feedback := "" }
  | _ =>
    { result := .Wrong expected, feedback := "Не забудьте указать артикль!" }

/-- The accepted-variant list built by `check_german_word_answer`:
the normalized `original`, the normalized last whitespace token of every
conjugation line, and every normalized whitespace token of every
example's German side. -/
def germanWordVariants (t : Translation) : List String :=
  [normalize t.original]
    ++ (match t.conjugations with
        | some conjugations =>
          (conjugations.filterMap (fun conj => (splitWs conj.data).getLast?)).map
            (fun w => normalize (strOf w))
        | none => [])
    ++ (t.examples.flatMap (fun ex => splitWs ex.german.data)).map
        (fun w => normalize (strOf w))

/-- `fn check_german_word_answer` from `src/practice.rs`. -/
def check_german_word_answer (sim : String → String → ℚ) (answer : String)
    (t : Translation) : AnswerCheck :=
  let correct_variants := germanWordVariants t
  if correct_variants.contains answer then
    { result := .Correct, feedback := "" }
  else
    let best_match := bestSim sim answer correct_variants
    if best_match > SIMILARITY_THRESHOLD then
      { result := .AlmostCorrect t.original best_match, feedback := "" }
    else
      { result := .Wrong t.original, feedback := "" }

/-- `fn check_german_answer` from `src/practice.rs`: noun records (first
grammar form a trimmed article) go to the noun checker. -/
def check_german_answer (sim : String → String → ℚ) (answer : String)
    (t : Translation) : AnswerCheck :=
  let is_noun := ((t.grammar_forms.head?).map
      (fun form => ARTICLES.contains (trimS form))).getD false
  if is_noun then check_german_noun_answer sim answer t
  else check_german_word_answer sim answer t

/-- `fn check_answer` from `src/practice.rs`: normalize, then dispatch on
the direction flag. -/
def check_answer (sim : String → String → ℚ) (answer : String)
    (t : Translation) (expecting_russian : Bool) : AnswerCheck :=
  let answer := normalize answer
  if expecting_russian then check_russian_answer sim answer t
  else check_german_answer sim answer t

/-! ## Response parser (`src/translation.rs`) -/

/-- The grammar/conjugation scan of `parse_translation_response`
(`while current_line < lines.len() && !lines[current_line].trim().starts_with('1')`):
walks the lines after the first two, accumulating grammar forms and — once
any line contains a personal-pronoun marker, stickily — conjugation lines,
and returns the remaining lines from the first line starting with `'1'`.
Arguments: remaining lines, `in_conjugation_section`, grammar accumulator,
conjugation accumulator. -/
def scanGrammar : List (List Char) → Bool → List String → List String →
    (List String × List String × List (List Char))
  | [], _, gforms, conjs => (gforms, conjs, [])
  | l :: rest, inConj, gforms, conjs =>
    if seqStartsWith (trimList l) ['1'] then (gforms, conjs, l :: rest)
    else
      let line := trimList l
      if line.isEmpty then scanGrammar rest inConj gforms conjs
      else if seqContains line "ich ".data || seqContains line "du ".data
          || seqContains line "er/".data || seqContains line "wir ".data
          || seqContains line "ihr ".data || seqContains line "sie/Sie".data then
        scanGrammar rest true gforms (conjs ++ [strOf line])
      else if inConj then
        scanGrammar rest true gforms (conjs ++ [strOf line])
      else
        scanGrammar rest inConj (gforms ++ [strOf line]) conjs

/-- The example-block loop of `parse_translation_response`: every line
whose trimmed form starts with `'1'` or `'2'` is split on `'-'` into
trimmed segments; the first segment, stripped of leading `'1'`/`'2'`
characters and trimmed, is the left side, the remaining segments joined
with `"-"` and trimmed are the right side; sides are swapped for
Russian-input queries. -/
def parseExamples (is_russian_input : Bool) : List (List Char) → List Example
  | [] => []
  | l :: rest =>
    let line := trimList l
    let here :=
      if seqStartsWith line ['1'] || seqStartsWith line ['2'] then
        match (splitChar (fun c => c = '-') line).map trimList with
        | german_part :: russian_parts =>
          let german := trimList (dropLeadingChar '2' (dropLeadingChar '1' german_part))
          let russian := trimList (joinSep ['-'] russian_parts)
          if is_russian_input then
            [{ german := strOf russian, russian := strOf german }]
          else
            [{ german := strOf german, russian := strOf russian }]
        | [] => []
      else []
    here ++ parseExamples is_russian_input rest

/-- `fn parse_translation_response` from `src/translation.rs`. -/
def parse_translation_response (original response : String) : Translation :=
  let lines := rustLines response.data
  let is_russian_input := original.data.any isCyrillicChar
  let base : Translation :=
    if is_russian_input then
      { original := strOf (trimList ((lines.get? 1).getD []))
        translation := strOf (trimList ((lines.get? 0).getD original.data))
        grammar_forms := []
        conjugations := none
        examples := []
        correct_answers := 0
        wrong_answers := 0 }
    else
      { original := strOf (trimList ((lines.get? 0).getD original.data))
        translation := strOf (trimList ((lines.get? 1).getD []))
        grammar_forms := []
        conjugations := none
        examples := []
        correct_answers := 0
        wrong_answers := 0 }
  let withBody :=
    if lines.length > 2 then
      let scanned := scanGrammar (lines.drop 2) false [] []
      { base with
          grammar_forms := scanned.1
          conjugations := if scanned.2.1.isEmpty then none else some scanned.2.1
          examples := parseExamples is_russian_input scanned.2.2 }
    else base
  if ¬ is_russian_input then
    match splitWs withBody.original.data with
    | [w0, w1] =>
      if ARTICLES.contains (strOf w0) then
        { withBody with
            grammar_forms := withBody.grammar_forms ++ [strOf w0]
            original := strOf w1 }
      else withBody
    | _ => withBody
  else withBody

/-! ## Vocabulary store operations (`src/translation.rs`)

The persistent JSON file is modelled as the list of records it holds;
each operation maps the old list to the new one. -/

/-- The case-insensitive either-field key match used by
`update_translation_stats`, `find_translation`, `add_translation` and
`delete_translation`. -/
def keyMatches (word : String) (t : Translation) : Bool :=
  rustLower t.original == rustLower word || rustLower t.translation == rustLower word

/-- `if correct { correct_answers += 1 } else { wrong_answers += 1 }`. -/
def bumpStats (correct : Bool) (t : Translation) : Translation :=
  if correct then { t with correct_answers := t.correct_answers + 1 }
  else { t with wrong_answers := t.wrong_answers + 1 }

/-- `fn update_translation_stats` from `src/translation.rs`: increment
the relevant counter of the first record matching `word` case-insensitively
on either field; leave the store unchanged when nothing matches. -/
def update_translation_stats (word : String) (correct : Bool) :
    List Translation → List Translation
  | [] => []
  | t :: rest =>
    if keyMatches word t then bumpStats correct t :: rest
    else t :: update_translation_stats word correct rest

/-- Two records share an upsert key: equal `original`s or equal
`translation`s, case-insensitively (the complement of the `retain`
condition in `add_translation`). -/
def keyClash (s t : Translation) : Bool :=
  rustLower s.original == rustLower t.original
    || rustLower s.translation == rustLower t.translation

/-- `fn add_translation` from `src/translation.rs`: reject invalid
records; otherwise drop every record sharing either key case-insensitively
and append the new record. -/
def add_translation (t : Translation) (store : List Translation) :
    Except String (List Translation) :=
  if ¬ t.is_valid then .error "Invalid translation data"
  else
    .ok ((store.filter (fun s =>
      !(rustLower s.original == rustLower t.original)
        && !(rustLower s.translation == rustLower t.translation))) ++ [t])

/-- The effect of `add_translation` on the persisted file: on a
validation error nothing is written and the store keeps its old value. -/
def runUpsert (t : Translation) (store : List Translation) : List Translation :=
  match add_translation t store with
  | .ok store' => store'
  | .error _ => store

/-! ## Weighted item sampler (`src/translation.rs`) -/

/-- The per-record selection weight of `get_weighted_translation`:
`2.0` for records with no prior attempts, `1.0 + wrong/(correct+wrong)`
otherwise. -/
def weight (t : Translation) : ℚ :=
  let total := t.correct_answers + t.wrong_answers
  if total = 0 then 2
  else 1 + (t.wrong_answers : ℚ) / (total : ℚ)

/-- The selection loop of `get_weighted_translation`: subtract each
weight from the running draw and stop at the first record where it
reaches `≤ 0`; `none` when the loop falls through. -/
def rouletteGo : List Translation → ℚ → Option Translation
  | [], _ => none
  | t :: rest, r =>
    let r := r - weight t
    if r ≤ 0 then some t else rouletteGo rest r

/-- `fn get_weighted_translation` from `src/translation.rs`, with the
uniform draw `random_value ∈ [0, total_weight)` supplied as the
parameter `r`; falls back to the first record when the loop falls
through. -/
def get_weighted_translation (translations : List Translation) (r : ℚ) :
    Option Translation :=
  if translations.isEmpty then none
  else
    match rouletteGo translations r with
    | some t => some t
    | none => translations.head?

/-- Running totals of the weights, for stating roulette-wheel selection. -/
def cumWeights : List Translation → ℚ → List ℚ
  | [], _ => []
  | t :: rest, acc => (acc + weight t) :: cumWeights rest (acc + weight t)

/-- Specification-level roulette wheel: the first record whose cumulative
weight reaches the draw, the first record as fallback. -/
def rouletteSpec (translations : List Translation) (r : ℚ) : Option Translation :=
  if translations.isEmpty then none
  else
    match (translations.zip (cumWeights translations 0)).find? (fun p => r ≤ p.2) with
    | some p => some p.1
    | none => translations.head?

/-! ## Practice session (`src/practice.rs`)

The async chat layer is modelled away: `bot.send_message` calls become a
list of structured `BotMsg` outputs (the float-formatted feedback text of
`AnswerCheck::format_message` is carried as the structured check itself),
the `rand` calls become explicit parameters in `StepRng`, and the session
`HashMap` behind the mutex becomes an association list keyed by chat id. -/

/-- `struct PracticeSentence` from `src/practice.rs`. -/
structure PracticeSentence where
  german_sentence : String
  russian_translation : String
  missing_word : String
deriving DecidableEq, Repr

/-- `enum PracticeType` from `src/practice.rs`. -/
inductive PracticeType where
  | WordTranslation
  | SentenceCompletion
deriving DecidableEq, Repr

/-- `struct PracticeSession` from `src/practice.rs`. -/
structure PracticeSession where
  current_word : Translation
  current_sentence : Option PracticeSentence
  practice_type : PracticeType
  expecting_russian : Bool
  words_practiced : Nat
  correct_answers : Nat
  wrong_answers : Nat
deriving DecidableEq, Repr

/-- The random values drawn during one session-start or answer step:
the practice-type coin, the direction coin, the sampler draw
`rng.gen::<f64>() * total_weight`, and the index drawn by
`SliceRandom::choose`. -/
structure StepRng where
  typeIsWord : Bool
  dirCoin : Bool
  sampleValue : ℚ
  sentenceIdx : Nat
deriving Repr

/-- `fn get_random_sentence` from `src/practice.rs`
(`SliceRandom::choose`): `none` exactly on an empty list, otherwise the
element at the supplied random index. -/
def get_random_sentence (sentences : List PracticeSentence) (idx : Nat) :
    Option PracticeSentence :=
  if sentences.isEmpty then none
  else sentences.get? (idx % sentences.length)

/-- `fn format_practice_question` from `src/practice.rs`. -/
def format_practice_question (t : Translation) (expecting_russian : Bool) : String :=
  if expecting_russian then
    match t.grammar_forms.head? with
    | some first_form =>
      if ARTICLES.contains (trimS first_form) then
        "Переведите на русский:\n👅" ++ trimS first_form ++ " " ++ t.original
      else "Переведите на русский:\n👅" ++ t.original
    | none => "Переведите на русский:\n👅" ++ t.original
  else
    match t.grammar_forms.head? with
    | some first_form =>
      if ARTICLES.contains (trimS first_form) then
        "Переведите на немецкий (не забудьте артикль!):\n👅" ++ t.translation
      else "Переведите на немецкий:\n👅" ++ t.translation
    | none => "Переведите на немецкий:\n👅" ++ t.translation

/-- The sentence-completion question text built in
`start_practice_session` and `check_practice_answer`. -/
def sentenceQuestionText (s : PracticeSentence) : String :=
  "Заполните пропуск правильным словом:\n\n" ++ s.german_sentence
    ++ "\n\nПеревод: " ++ s.russian_translation

/-- The feedback content of one answer, before formatting: either a word
check, a sentence-completion verdict, or the missing-sentence error. -/
inductive FeedbackVal where
  | word (check : AnswerCheck)
  | sentence (correct : Bool) (missing_word : String)
  | noSentenceError
deriving DecidableEq, Repr

/-- One `bot.send_message` call, as structured content. -/
inductive BotMsg where
  | noWordsAvailable
  | practiceStarted
  | question (text : String)
  | feedback (value : FeedbackVal) (stats : Option (Nat × Nat × Nat))
deriving DecidableEq, Repr

/-- `sessions.get(&msg.chat.id.0)` on the association-list model. -/
def lookupSession (sessions : List (Int × PracticeSession)) (chat : Int) :
    Option PracticeSession :=
  (sessions.find? (fun p => p.1 == chat)).map Prod.snd

/-- `sessions.insert(msg.chat.id.0, session)`: replace any binding for
the same chat id. -/
def insertSession (sessions : List (Int × PracticeSession)) (chat : Int)
    (s : PracticeSession) : List (Int × PracticeSession) :=
  (chat, s) :: sessions.filter (fun p => p.1 ≠ chat)

/-- The outcome of a session-start or answer step: the session table, the
vocabulary store, and the messages sent, in order. -/
structure StepResult where
  sessions : List (Int × PracticeSession)
  store : List Translation
  msgs : List BotMsg
deriving DecidableEq, Repr

/-- `fn start_practice_session` from `src/practice.rs`: reject when the
store or the practice-sentence list is empty; otherwise a coin picks the
practice type, word mode draws from the weighted sampler with a fresh
direction coin, sentence mode draws a random sentence with
`expecting_russian = false`; either way the session starts with zeroed
counters.  The unreachable `ok_or` failure paths (a `None` draw from a
non-empty list) leave the table unchanged with no messages, matching the
`?` early error return. -/
def start_practice_session (rng : StepRng) (translations : List Translation)
    (sentences : List PracticeSentence) (chat : Int)
    (sessions : List (Int × PracticeSession)) : StepResult :=
  if translations.isEmpty || sentences.isEmpty then
    ⟨sessions, translations, [.noWordsAvailable]⟩
  else
    let practice_type := if rng.typeIsWord then PracticeType.WordTranslation
      else PracticeType.SentenceCompletion
    match practice_type with
    | .WordTranslation =>
      match get_weighted_translation translations rng.sampleValue with
      | some translation =>
        let expecting_russian := rng.dirCoin
        let question := format_practice_question translation expecting_russian
        let session : PracticeSession :=
          { current_word := translation
            current_sentence := none
            practice_type := practice_type
            expecting_russian := expecting_russian
            words_practiced := 0
            correct_answers := 0
            wrong_answers := 0 }
        ⟨insertSession sessions chat session, translations,
          [.practiceStarted, .question question]⟩
      | none => ⟨sessions, translations, []⟩
    | .SentenceCompletion =>
      match get_random_sentence sentences rng.sentenceIdx with
      | some sentence =>
        let question := sentenceQuestionText sentence
        let session : PracticeSession :=
          { current_word := Translation.default
            current_sentence := some sentence
            practice_type := practice_type
            expecting_russian := false
            words_practiced := 0
            correct_answers := 0
            wrong_answers := 0 }
        ⟨insertSession sessions chat session, translations,
          [.practiceStarted, .question question]⟩
      | none => ⟨sessions, translations, []⟩

/-- `matches!(check_result.result, AnswerResult::Correct)`. -/
def AnswerResult.isCorrect : AnswerResult → Bool
  | .Correct => true
  | _ => false

/-- The grading part of `check_practice_answer`: the feedback value and
the `is_correct` flag for the trimmed incoming text. -/
def gradeAnswer (sim : String → String → ℚ) (session : PracticeSession)
    (answer : String) : FeedbackVal × Bool :=
  match session.practice_type with
  | .WordTranslation =>
    let check := check_answer sim answer session.current_word session.expecting_russian
    (.word check, check.result.isCorrect)
  | .SentenceCompletion =>
    match session.current_sentence with
    | some sentence =>
      let is_correct := rustLower (trimS answer) == rustLower sentence.missing_word
      (.sentence is_correct sentence.missing_word, is_correct)
    | none => (.noSentenceError, false)

/-- `fn check_practice_answer` from `src/practice.rs`: no-op without a
session; otherwise grade the answer, bump the session counters, append
the running stats to every `STATS_INTERVAL`-th feedback, update the
per-word store statistics (word sessions only) keyed on
`original`/`translation` by direction, and on a correct answer draw the
next item — a weighted word with a fresh direction coin or a random
sentence with the direction left as-is; when the draw fails the function
returns before re-inserting the session. -/
def check_practice_answer_step (sim : String → String → ℚ) (rng : StepRng)
    (sentences : List PracticeSentence) (chat : Int) (text : Option String)
    (sessions : List (Int × PracticeSession)) (store : List Translation) :
    StepResult :=
  match lookupSession sessions chat with
  | none => ⟨sessions, store, []⟩
  | some session =>
    let answer := trimS (text.getD "")
    let graded := gradeAnswer sim session answer
    let is_correct := graded.2
    let session1 : PracticeSession :=
      { session with
          words_practiced := session.words_practiced + 1
          correct_answers :=
            if is_correct then session.correct_answers + 1 else session.correct_answers
          wrong_answers :=
            if is_correct then session.wrong_answers else session.wrong_answers + 1 }
    let stats := if session1.words_practiced % STATS_INTERVAL = 0 then
        some (session1.words_practiced, session1.correct_answers, session1.wrong_answers)
      else none
    let store1 :=
      match session1.practice_type with
      | .WordTranslation =>
        let word := if session1.expecting_russian then session1.current_word.original
          else session1.current_word.translation
        update_translation_stats word is_correct store
      | .SentenceCompletion => store
    let msgs := [BotMsg.feedback graded.1 stats]
    if is_correct then
      let practice_type := if rng.typeIsWord then PracticeType.WordTranslation
        else PracticeType.SentenceCompletion
      match practice_type with
      | .WordTranslation =>
        match get_weighted_translation store1 rng.sampleValue with
        | some next_translation =>
          let session2 : PracticeSession :=
            { session1 with
                current_word := next_translation
                current_sentence := none
                practice_type := practice_type
                expecting_russian := rng.dirCoin }
          ⟨insertSession sessions chat session2, store1,
            msgs ++ [.question (format_practice_question next_translation rng.dirCoin)]⟩
        | none => ⟨sessions, store1, msgs⟩
      | .SentenceCompletion =>
        match get_random_sentence sentences rng.sentenceIdx with
        | some sentence =>
          let session2 : PracticeSession :=
            { session1 with
                current_sentence := some sentence
                current_word := Translation.default
                practice_type := practice_type }
          ⟨insertSession sessions chat session2, store1,
            msgs ++ [.question (sentenceQuestionText sentence)]⟩
        | none => ⟨sessions, store1, msgs⟩
    else
      ⟨insertSession sessions chat session1, store1, msgs⟩

/-- The store component of one answer step, in closed form: for a
word-translation session the per-word statistics are updated under the
key picked by the direction flag (`original` when `expecting_russian`,
`translation` otherwise); sentence sessions leave the store alone. -/
def stepStoreAfter (sim : String → String → ℚ) (session : PracticeSession)
    (text : Option String) (store : List Translation) : List Translation :=
  match session.practice_type with
  | .WordTranslation =>
    update_translation_stats
      (if session.expecting_russian then session.current_word.original
       else session.current_word.translation)
      (gradeAnswer sim session (trimS (text.getD ""))).2 store
  | .SentenceCompletion => store

/-! ## Fixtures -/

/-- A typical noun record: German original, Russian translation, article. -/
def tischR : Translation :=
  { original := "Tisch", translation := "стол", grammar_forms := ["der"]
    conjugations := none, examples := [], correct_answers := 0, wrong_answers := 0 }

/-- A record with no grammar forms (non-noun path). -/
def wordTischStol : Translation :=
  { original := "Tisch", translation := "стол", grammar_forms := []
    conjugations := none, examples := [], correct_answers := 0, wrong_answers := 0 }

/-- A store record whose translation collides case-insensitively with
`wordTischStol.original`. -/
def hausRecord : Translation :=
  { original := "Haus", translation := "tisch", grammar_forms := []
    conjugations := none, examples := [], correct_answers := 0, wrong_answers := 0 }

/-- A practice sentence fixture. -/
def sentenceFix : PracticeSentence :=
  { german_sentence := "Ich ___ gern Brot", russian_translation := "Я люблю хлеб"
    missing_word := "esse" }

/-- A similarity function that is constantly `0`. -/
def simZero : String → String → ℚ := fun _ _ => 0

/-- A similarity function that is constantly `0.85`. -/
def sim85 : String → String → ℚ := fun _ _ => mkRat 85 100

/-- A similarity function scoring `0.86` for the answer `"qq"` and
`0.85` for every other answer. -/
def simW : String → String → ℚ :=
  fun a _ => if a = "qq" then mkRat 86 100 else mkRat 85 100

/-- A fixed random draw. -/
def rng0 : StepRng := { typeIsWord := true, dirCoin := true, sampleValue := 0, sentenceIdx := 0 }

/-- A random draw whose practice-type coin picks sentence completion and
whose direction coin is `false`. -/
def rngPickSentence : StepRng :=
  { typeIsWord := false, dirCoin := false, sampleValue := 0, sentenceIdx := 0 }

/-- A reverse-direction word session on `wordTischStol`. -/
def sessionRev : PracticeSession :=
  { current_word := wordTischStol, current_sentence := none
    practice_type := .WordTranslation, expecting_russian := true
    words_practiced := 0, correct_answers := 0, wrong_answers := 0 }

/-- The raw tutor response of claim C2's scenario. -/
def c2Response : String := "Tisch\nстол\nder\n1. Der Tisch ist groß - Стол большой"

/-! ## Helper lemmas -/

/-- Looking up the freshly inserted chat id returns the new session. -/
theorem lookupSession_insert (sessions : List (Int × PracticeSession))
    (chat : Int) (s : PracticeSession) :
    lookupSession (insertSession sessions chat s) chat = some s := by
  simp [lookupSession, insertSession, List.find?]

/-! ## Claim C2: the parser-direction-swap scenario -/

/-- C2, counterexample.  On the claim's exact input — original query
`"стол"`, raw response `"Tisch\nстол\nder\n1. Der Tisch ist groß - Стол
большой"` — the parser does NOT yield `original = "Tisch"` and
`translation = "стол"`: for a Cyrillic query it assigns the response's
second line to `original` and the first to `translation`, so the fields
come out the other way round. -/
theorem c2_counterexample :
    (parse_translation_response "стол" c2Response).original ≠ "Tisch" ∧
    (parse_translation_response "стол" c2Response).translation ≠ "стол" := by
  decide

/-- C2, amended.  Parsing the claim's input yields
`original = "стол"`, `translation = "Tisch"`, `grammar_forms = ["der"]`,
no conjugations, and one example pair whose `german` side is the text
right of the hyphen (`"Стол большой"`) and whose `russian` side is the
text left of the hyphen with only the leading digit `1` stripped, keeping
the dot (`". Der Tisch ist groß"`). -/
theorem c2_amended_parse :
    parse_translation_response "стол" c2Response =
      { original := "стол", translation := "Tisch", grammar_forms := ["der"]
        conjugations := none
        examples := [{ german := "Стол большой", russian := ". Der Tisch ist groß" }]
        correct_answers := 0, wrong_answers := 0 } := by
  decide

/-! ## Claim C7: rejoin of extra hyphen segments -/

/-- C7, counterexample.  For the example line `"1. Ich mag A - B - C"`
(three hyphen-separated segments) the parser's right-hand side is
`"B-C"` — the trimmed segments rejoined with a bare `"-"` — and not the
claim's `"B - C"` (space hyphen space). -/
theorem c7_counterexample :
    (parse_translation_response "Haus" "Haus\nдом\n1. Ich mag A - B - C").examples.map
        Example.russian = ["B-C"] ∧
    ("B-C" : String) ≠ "B - C" := by
  decide

/-- C7, amended.  For every line whose trimmed form starts with `'1'` or
`'2'` and that splits on `'-'` into more than two trimmed segments, all
segments after the first are rejoined with the bare separator `"-"`
(each segment having been trimmed individually, and the result trimmed
again) to form the right-hand side of the example pair; the pair is
swapped for Cyrillic queries. -/
theorem c7_amended (is_russian_input : Bool) (l : List Char)
    (rest : List (List Char)) (p0 p1 p2 : List Char) (ps : List (List Char))
    (hstart : seqStartsWith (trimList l) ['1'] = true
      ∨ seqStartsWith (trimList l) ['2'] = true)
    (hsplit : (splitChar (fun c => c = '-') (trimList l)).map trimList
      = p0 :: p1 :: p2 :: ps) :
    parseExamples is_russian_input (l :: rest) =
      (if is_russian_input then
        [{ german := strOf (trimList (joinSep ['-'] (p1 :: p2 :: ps)))
           russian := strOf (trimList (dropLeadingChar '2' (dropLeadingChar '1' p0))) }]
       else
        [{ german := strOf (trimList (dropLeadingChar '2' (dropLeadingChar '1' p0)))
           russian := strOf (trimList (joinSep ['-'] (p1 :: p2 :: ps))) }])
        ++ parseExamples is_russian_input rest := by
  rcases hstart with h | h <;>
    simp only [parseExamples, h, Bool.true_or, Bool.or_true, if_true, hsplit]

/-- C7, witness for the amended theorem at the line `"1. A - B - C"`. -/
theorem c7_amended_witness :
    parseExamples false ["1. A - B - C".data] =
      [{ german := ". A", russian := "B-C" }] := by
  have h := c7_amended false "1. A - B - C".data [] "1. A".data "B".data "C".data []
    (Or.inl (by decide)) (by decide)
  simpa using h

/-! ## Claim C10: answers without an active session -/

/-- C10.  Submitting an answer for a chat identity with no active
session leaves the session table and the vocabulary store unchanged and
produces no messages. -/
theorem c10_no_session (sim : String → String → ℚ) (rng : StepRng)
    (sentences : List PracticeSentence) (chat : Int) (text : Option String)
    (sessions : List (Int × PracticeSession)) (store : List Translation)
    (h : lookupSession sessions chat = none) :
    check_practice_answer_step sim rng sentences chat text sessions store =
      ⟨sessions, store, []⟩ := by
  simp [check_practice_answer_step, h]

/-- C10, witness: the empty session table at chat id 7. -/
theorem c10_no_session_witness :
    check_practice_answer_step simZero rng0 [] 7 (some "стол") [] [tischR] =
      ⟨[], [tischR], []⟩ :=
  c10_no_session simZero rng0 [] 7 (some "стол") [] [tischR] (by decide)

/-! ## Claim C4: upsert dedup idempotence and validation -/

/-- C4.  For every valid record `r`, upserting it twice succeeds, the
second upsert returns the store of the first unchanged, and the result
holds exactly one record whose `original` or `translation`
case-insensitively matches `r`'s; an invalid record is rejected with the
validation error and the persisted store keeps its old value. -/
theorem c4_upsert_idempotent (r bad : Translation) (store : List Translation)
    (hv : r.is_valid = true) (hbad : bad.is_valid = false) :
    (∃ s1, add_translation r store = .ok s1 ∧ add_translation r s1 = .ok s1 ∧
       s1.countP (fun s => keyClash s r) = 1) ∧
    add_translation bad store = .error "Invalid translation data" ∧
    runUpsert bad store = store := by
  have hfun : (fun s : Translation =>
      !(rustLower s.original == rustLower r.original)
        && !(rustLower s.translation == rustLower r.translation))
      = fun s => !(keyClash s r) := by
    funext s; simp [keyClash, Bool.not_or]
  have hself : keyClash r r = true := by simp [keyClash]
  refine ⟨⟨store.filter (fun s => !(keyClash s r)) ++ [r], ?_, ?_, ?_⟩, ?_, ?_⟩
  · simp [add_translation, hv, hfun]
  · simp only [add_translation, hv, not_true_eq_false, if_false, hfun,
      List.filter_append, List.filter_filter, Bool.and_self]
    simp [List.filter_cons, hself]
  · rw [List.countP_append, List.countP_eq_zero.mpr]
    · simp [List.countP_cons, hself]
    · intro a ha
      rw [List.mem_filter] at ha
      simpa using ha.2
  · simp [add_translation, hbad]
  · simp [runUpsert, add_translation, hbad]

/-- C4, witness: the valid record `tischR` and the invalid default
record on the empty store. -/
theorem c4_upsert_idempotent_witness :
    (∃ s1, add_translation tischR [] = .ok s1 ∧ add_translation tischR s1 = .ok s1 ∧
       s1.countP (fun s => keyClash s tischR) = 1) ∧
    add_translation Translation.default [] = .error "Invalid translation data" ∧
    runUpsert Translation.default [] = [] :=
  c4_upsert_idempotent tischR Translation.default [] (by decide) (by decide)

/-! ## Claim C9: forward noun path with a matching article -/

/-- C9.  For every noun record (first grammar form a trimmed article),
every similarity metric, and every answer whose normalized form splits
into at least two whitespace tokens with the first token matching the
expected article, the forward matcher never returns `Wrong` or
`WrongArticle`: it returns `Correct` when the similarity between the
second token and the noun exceeds the threshold and `AlmostCorrect`
otherwise — even when that similarity is `0`. -/
theorem c9_noun_article (sim : String → String → ℚ) (t : Translation) (ans : String)
    (g : String) (article noun : List Char) (rest : List (List Char))
    (hg : t.grammar_forms.head? = some g)
    (hart : ARTICLES.contains (trimS g) = true)
    (hsplit : splitWs (normalize ans).data = article :: noun :: rest)
    (hmatch : rustLower (strOf article) = rustLower (trimS g)) :
    (∀ e, (check_answer sim ans t false).result ≠ .Wrong e) ∧
    (∀ e, (check_answer sim ans t false).result ≠ .WrongArticle e) ∧
    (sim (normalize (strOf noun)) (normalize t.original) > SIMILARITY_THRESHOLD →
      (check_answer sim ans t false).result = .Correct) ∧
    (¬ sim (normalize (strOf noun)) (normalize t.original) > SIMILARITY_THRESHOLD →
      (check_answer sim ans t false).result =
        .AlmostCorrect (rustLower (trimS g) ++ " " ++ normalize t.original)
          (sim (normalize (strOf noun)) (normalize t.original))) := by
  have key : check_answer sim ans t false =
      (if sim (normalize (strOf noun)) (normalize t.original) > SIMILARITY_THRESHOLD then
        ({ result := .Correct, feedback := "" } : AnswerCheck)
      else
        { result := .AlmostCorrect (rustLower (trimS g) ++ " " ++ normalize t.original)
            (sim (normalize (strOf noun)) (normalize t.original))
          feedback := "" }) := by
    have hart' : trimS g ∈ ARTICLES := by simpa using hart
    simp [check_answer, check_german_answer, check_german_noun_answer, hg, hart',
      hsplit, hmatch]
  by_cases hc : sim (normalize (strOf noun)) (normalize t.original) > SIMILARITY_THRESHOLD
  · refine ⟨?_, ?_, fun _ => ?_, fun hn => absurd hc hn⟩ <;> simp [key, hc]
  · refine ⟨?_, ?_, fun hn => absurd hn hc, fun _ => ?_⟩ <;> simp [key, hc]

/-- C9, witness: the record `tischR`, a zero-similarity metric and the
answer `"der Haus"` — right article, completely different noun — is
graded `AlmostCorrect` with similarity `0`, not `Wrong`. -/
theorem c9_noun_article_witness :
    (check_answer simZero "der Haus" tischR false).result =
      .AlmostCorrect "der tisch" 0 :=
  (c9_noun_article simZero tischR "der Haus" "der" "der".data "haus".data []
    (by decide) (by decide) (by decide) (by decide)).2.2.2 (by decide)

/-! ## Claim C1: the 0.85 similarity boundary -/

/-- C1, counterexample.  The claim asserts that a best similarity of
exactly `0.85` never yields `AlmostCorrect` in any path, including the
forward noun path after a matching article.  But in that noun path the
strict `> 0.85` comparison separates `Correct` from `AlmostCorrect`, not
`AlmostCorrect` from `Wrong`: with a metric that scores exactly `0.85`,
the answer `"der Haus"` against the noun record `tischR` is graded
`AlmostCorrect`. -/
theorem c1_counterexample :
    sim85 (normalize "Haus") (normalize tischR.original) = mkRat 85 100 ∧
    (check_answer sim85 "der Haus" tischR false).result =
      .AlmostCorrect "der tisch" (mkRat 85 100) := by
  decide

/-- C1, amended.  In the reverse path and the forward non-noun path,
with no exact/containment match, a best similarity of exactly `0.85`
yields `Wrong` and `0.86` yields `AlmostCorrect`; in the forward noun
path after a matching article the same strict `> 0.85` boundary instead
separates `AlmostCorrect` (at `0.85`) from `Correct` (at `0.86`). -/
theorem c1_amended (sim : String → String → ℚ)
    (tR1 : Translation) (aR1 : String)
    (hR1a : normalize aR1 ∉ russianVariants tR1)
    (hR1b : normalize aR1 ≠ normalize tR1.translation)
    (hR1c : bestSim sim (normalize aR1) (russianVariants tR1) = mkRat 85 100)
    (tR2 : Translation) (aR2 : String)
    (hR2a : normalize aR2 ∉ russianVariants tR2)
    (hR2b : normalize aR2 ≠ normalize tR2.translation)
    (hR2c : bestSim sim (normalize aR2) (russianVariants tR2) = mkRat 86 100)
    (tW1 : Translation) (aW1 : String)
    (hW1n : ∀ g, tW1.grammar_forms.head? = some g → trimS g ∉ ARTICLES)
    (hW1a : normalize aW1 ∉ germanWordVariants tW1)
    (hW1c : bestSim sim (normalize aW1) (germanWordVariants tW1) = mkRat 85 100)
    (tW2 : Translation) (aW2 : String)
    (hW2n : ∀ g, tW2.grammar_forms.head? = some g → trimS g ∉ ARTICLES)
    (hW2a : normalize aW2 ∉ germanWordVariants tW2)
    (hW2c : bestSim sim (normalize aW2) (germanWordVariants tW2) = mkRat 86 100)
    (tN1 : Translation) (aN1 g1 : String) (art1 noun1 : List Char) (rest1 : List (List Char))
    (hN1g : tN1.grammar_forms.head? = some g1)
    (hN1art : trimS g1 ∈ ARTICLES)
    (hN1split : splitWs (normalize aN1).data = art1 :: noun1 :: rest1)
    (hN1match : rustLower (strOf art1) = rustLower (trimS g1))
    (hN1sim : sim (normalize (strOf noun1)) (normalize tN1.original) = mkRat 85 100)
    (tN2 : Translation) (aN2 g2 : String) (art2 noun2 : List Char) (rest2 : List (List Char))
    (hN2g : tN2.grammar_forms.head? = some g2)
    (hN2art : trimS g2 ∈ ARTICLES)
    (hN2split : splitWs (normalize aN2).data = art2 :: noun2 :: rest2)
    (hN2match : rustLower (strOf art2) = rustLower (trimS g2))
    (hN2sim : sim (normalize (strOf noun2)) (normalize tN2.original) = mkRat 86 100) :
    (check_answer sim aR1 tR1 true).result = .Wrong tR1.translation ∧
    (check_answer sim aR2 tR2 true).result =
      .AlmostCorrect tR2.translation (mkRat 86 100) ∧
    (check_answer sim aW1 tW1 false).result = .Wrong tW1.original ∧
    (check_answer sim aW2 tW2 false).result =
      .AlmostCorrect tW2.original (mkRat 86 100) ∧
    (check_answer sim aN1 tN1 false).result =
      .AlmostCorrect (rustLower (trimS g1) ++ " " ++ normalize tN1.original)
        (mkRat 85 100) ∧
    (check_answer sim aN2 tN2 false).result = .Correct := by
  have h85 : ¬ (mkRat 85 100 > SIMILARITY_THRESHOLD) := by decide
  have h86 : mkRat 86 100 > SIMILARITY_THRESHOLD := by decide
  refine ⟨?_, ?_, ?_, ?_, ?_, ?_⟩
  · simp [check_answer, check_russian_answer, hR1a, hR1b, hR1c, h85]
  · simp [check_answer, check_russian_answer, hR2a, hR2b, hR2c, h86]
  · rcases hh : tW1.grammar_forms.head? with _ | g
    · simp [check_answer, check_german_answer, check_german_word_answer, hh,
        hW1a, hW1c, h85]
    · simp [check_answer, check_german_answer, check_german_word_answer, hh,
        hW1n g hh, hW1a, hW1c, h85]
  · rcases hh : tW2.grammar_forms.head? with _ | g
    · simp [check_answer, check_german_answer, check_german_word_answer, hh,
        hW2a, hW2c, h86]
    · simp [check_answer, check_german_answer, check_german_word_answer, hh,
        hW2n g hh, hW2a, hW2c, h86]
  · simp [check_answer, check_german_answer, check_german_noun_answer, hN1g,
      hN1art, hN1split, hN1match, hN1sim, h85]
  · simp [check_answer, check_german_answer, check_german_noun_answer, hN2g,
      hN2art, hN2split, hN2match, hN2sim, h86]

/-- C1, witness for the amended theorem: a metric scoring `0.86` for the
answer token `"qq"` and `0.85` otherwise, with the fixtures
`wordTischStol` (reverse and non-noun paths) and `tischR` (noun path);
the stated instance is the noun-path `0.86 ⇒ Correct` conjunct. -/
theorem c1_amended_witness :
    (check_answer simW "der qq" tischR false).result = .Correct :=
  (c1_amended simW
    wordTischStol "x" (by decide) (by decide) (by decide)
    wordTischStol "qq" (by decide) (by decide) (by decide)
    wordTischStol "x" (by simp [wordTischStol]) (by decide) (by decide)
    wordTischStol "qq" (by simp [wordTischStol]) (by decide) (by decide)
    tischR "der x" "der" "der".data "x".data [] (by decide) (by decide)
      (by decide) (by decide) (by decide)
    tischR "der qq" "der" "der".data "qq".data [] (by decide) (by decide)
      (by decide) (by decide) (by decide)).2.2.2.2.2

/-! ## Claim C3: the weighted sampler -/

/-- The selection loop realizes roulette-wheel selection: subtracting the
weights until the draw is spent picks the first record whose cumulative
weight reaches the draw. -/
theorem rouletteGo_find (ts : List Translation) (r : ℚ) :
    ∀ acc : ℚ, rouletteGo ts (r - acc) =
      ((ts.zip (cumWeights ts acc)).find? (fun p => r ≤ p.2)).map Prod.fst := by
  induction ts with
  | nil => intro acc; simp [rouletteGo, cumWeights]
  | cons t rest ih =>
    intro acc
    simp only [rouletteGo, cumWeights, List.zip_cons_cons, List.find?]
    by_cases hc : r - acc - weight t ≤ 0
    · have hc' : r ≤ acc + weight t := by linarith
      simp [hc, hc']
    · have hc' : ¬ (r ≤ acc + weight t) := fun h => hc (by linarith)
      have heq : r - acc - weight t = r - (acc + weight t) := by ring
      rw [if_neg hc, heq, ih (acc + weight t)]
      simp [hc', List.zip]

/-- On a non-empty store the sampler always yields a record. -/
theorem get_weighted_some (translations : List Translation) (r : ℚ)
    (hne : translations ≠ []) :
    ∃ u, get_weighted_translation translations r = some u := by
  obtain ⟨a, as, rfl⟩ := List.exists_cons_of_ne_nil hne
  simp only [get_weighted_translation, List.isEmpty_cons, Bool.false_eq_true, if_false]
  rcases hgo : rouletteGo (a :: as) r with _ | u
  · exact ⟨a, rfl⟩
  · exact ⟨u, rfl⟩

/-- On a non-empty sentence list the random choice always yields a
sentence. -/
theorem get_random_sentence_some (sentences : List PracticeSentence) (idx : Nat)
    (hne : sentences ≠ []) :
    ∃ st, get_random_sentence sentences idx = some st := by
  obtain ⟨a, as, rfl⟩ := List.exists_cons_of_ne_nil hne
  simp only [get_random_sentence, List.isEmpty_cons, Bool.false_eq_true, if_false]
  rcases hget : (a :: as).get? (idx % (a :: as).length) with _ | st
  · exfalso
    have hlt : idx % (a :: as).length < (a :: as).length :=
      Nat.mod_lt _ (by simp)
    rw [List.get?_eq_none] at hget
    omega
  · exact ⟨st, rfl⟩

/-- C3.  The weighted sampler returns `none` exactly on the empty list;
on a non-empty list it always returns `some` record; its per-record
weight is `2` for unattempted records and `1 + wrong/(correct+wrong)`
otherwise; and the selection is roulette-wheel over the cumulative
weights (the first record whose cumulative weight reaches the draw),
falling back to the first record when the walk falls through. -/
theorem c3_sampler (translations : List Translation) (r : ℚ) (t : Translation)
    (hne : translations ≠ []) :
    get_weighted_translation [] r = none ∧
    (get_weighted_translation translations r = none ↔ translations = []) ∧
    weight t = (if t.correct_answers + t.wrong_answers = 0 then 2
      else 1 + (t.wrong_answers : ℚ) / ((t.correct_answers + t.wrong_answers : Nat) : ℚ)) ∧
    get_weighted_translation translations r = rouletteSpec translations r ∧
    ((translations.zip (cumWeights translations 0)).find? (fun p => r ≤ p.2) = none →
      get_weighted_translation translations r = translations.head?) ∧
    ∃ u, get_weighted_translation translations r = some u := by
  obtain ⟨a, as, rfl⟩ := List.exists_cons_of_ne_nil hne
  have hfind := rouletteGo_find (a :: as) r 0
  rw [sub_zero] at hfind
  have h4 : get_weighted_translation (a :: as) r = rouletteSpec (a :: as) r := by
    simp only [get_weighted_translation, rouletteSpec, hfind, List.isEmpty_cons,
      Bool.false_eq_true, if_false]
    rcases hf : ((a :: as).zip (cumWeights (a :: as) 0)).find? (fun p => r ≤ p.2)
      with _ | p <;> simp [hf]
  have hsome : ∃ u, get_weighted_translation (a :: as) r = some u := by
    simp only [get_weighted_translation, List.isEmpty_cons, Bool.false_eq_true, if_false]
    rcases hgo : rouletteGo (a :: as) r with _ | u
    · exact ⟨a, rfl⟩
    · exact ⟨u, rfl⟩
  refine ⟨by simp [get_weighted_translation], ?_, rfl, h4, ?_, hsome⟩
  · obtain ⟨u, hu⟩ := hsome
    simp [hu]
  · intro hnone
    rw [h4]
    simp [rouletteSpec, hnone]

/-- C3, witness: the singleton store `[tischR]` with draw `1/2` yields a
record. -/
theorem c3_sampler_witness :
    ∃ u, get_weighted_translation [tischR] (mkRat 1 2) = some u :=
  (c3_sampler [tischR] (mkRat 1 2) tischR (by simp)).2.2.2.2.2

/-! ## Claim C5: the stats lookup key -/

/-- C5, counterexample.  The claim says the lookup key is the
answer-side field — the `translation` when `expecting_reverse` is true.
In a reverse-direction session (`expecting_russian = true`) on
`wordTischStol` the step instead updates the store under the
question-side key `current_word.original` (`"Tisch"`): against a store
whose only record matches `"Tisch"` but not `"стол"`, the step's store
differs from what the answer-side key would produce. -/
theorem c5_counterexample :
    sessionRev.expecting_russian = true ∧
    (gradeAnswer simZero sessionRev "nein").2 = false ∧
    (check_practice_answer_step simZero rng0 [] 1 (some "nein")
        [(1, sessionRev)] [hausRecord]).store =
      update_translation_stats sessionRev.current_word.original false [hausRecord] ∧
    (check_practice_answer_step simZero rng0 [] 1 (some "nein")
        [(1, sessionRev)] [hausRecord]).store ≠
      update_translation_stats sessionRev.current_word.translation false [hausRecord] := by
  decide

/-- C5, amended.  After every graded answer of a word-translation
session, the step updates the persistent statistics using the
question-side field as the lookup key: the record's `original` when
`expecting_reverse` is true and its `translation` otherwise (the store
lookup itself still matches either field case-insensitively, so the same
record is located). -/
theorem c5_amended (sim : String → String → ℚ) (rng : StepRng)
    (sentences : List PracticeSentence) (chat : Int) (text : Option String)
    (sessions : List (Int × PracticeSession)) (store : List Translation)
    (session : PracticeSession)
    (h : lookupSession sessions chat = some session)
    (hw : session.practice_type = .WordTranslation) :
    (check_practice_answer_step sim rng sentences chat text sessions store).store =
      update_translation_stats
        (if session.expecting_russian then session.current_word.original
         else session.current_word.translation)
        (gradeAnswer sim session (trimS (text.getD ""))).2 store := by
  cases hg : (gradeAnswer sim session (trimS (text.getD ""))).2 with
  | false => simp [check_practice_answer_step, h, hw, hg]
  | true =>
    simp only [check_practice_answer_step, h, hw, hg]
    cases rng.typeIsWord <;> simp [hw] <;> split <;> simp

/-- C5, witness for the amended theorem: the reverse session
`sessionRev` over the store `[hausRecord]`. -/
theorem c5_amended_witness :
    (check_practice_answer_step simZero rng0 [] 1 (some "nein")
        [(1, sessionRev)] [hausRecord]).store =
      update_translation_stats
        (if sessionRev.expecting_russian then sessionRev.current_word.original
         else sessionRev.current_word.translation)
        (gradeAnswer simZero sessionRev (trimS ((some "nein").getD ""))).2 [hausRecord] :=
  c5_amended simZero rng0 [] 1 (some "nein") [(1, sessionRev)] [hausRecord] sessionRev
    (by decide) (by decide)

/-! ## Claim C6: session advancement -/

/-- C6, counterexample.  The claim says every `Correct` outcome draws a
new item *and a new direction*.  Here a correct answer is followed by
the practice-type coin picking sentence completion: a new item (the
sentence) is stored, but the direction flag keeps its old value `true`
even though the fresh direction coin is `false` — no new direction is
drawn. -/
theorem c6_counterexample :
    (gradeAnswer simZero sessionRev "стол").2 = true ∧
    rngPickSentence.dirCoin = false ∧
    lookupSession (check_practice_answer_step simZero rngPickSentence [sentenceFix] 1
        (some "стол") [(1, sessionRev)] []).sessions 1 =
      some { current_word := Translation.default, current_sentence := some sentenceFix
             practice_type := .SentenceCompletion, expecting_russian := true
             words_practiced := 1, correct_answers := 1, wrong_answers := 0 } := by
  decide

/-- C6, amended.  Any non-`Correct` outcome re-inserts the session with
only the attempt/wrong counters bumped — the current item, the current
sentence, the practice type and the direction flag are unchanged.  A
`Correct` outcome draws a new item; the direction flag is freshly drawn
only when the practice-type coin picks word mode (in sentence mode it
keeps its old value), and when the draw yields nothing the stored
session is left entirely unchanged, counters included. -/
theorem c6_amended (sim : String → String → ℚ) (rng : StepRng)
    (sentences : List PracticeSentence) (chat : Int) (text : Option String)
    (sessions : List (Int × PracticeSession)) (store : List Translation)
    (session : PracticeSession)
    (h : lookupSession sessions chat = some session) :
    ((gradeAnswer sim session (trimS (text.getD ""))).2 = false →
      lookupSession (check_practice_answer_step sim rng sentences chat text
          sessions store).sessions chat =
        some { session with
                 words_practiced := session.words_practiced + 1
                 wrong_answers := session.wrong_answers + 1 }) ∧
    ((gradeAnswer sim session (trimS (text.getD ""))).2 = true → rng.typeIsWord = true →
      ∀ next, get_weighted_translation (stepStoreAfter sim session text store)
          rng.sampleValue = some next →
        lookupSession (check_practice_answer_step sim rng sentences chat text
            sessions store).sessions chat =
          some { session with
                   words_practiced := session.words_practiced + 1
                   correct_answers := session.correct_answers + 1
                   current_word := next
                   current_sentence := none
                   practice_type := .WordTranslation
                   expecting_russian := rng.dirCoin }) ∧
    ((gradeAnswer sim session (trimS (text.getD ""))).2 = true → rng.typeIsWord = false →
      ∀ st, get_random_sentence sentences rng.sentenceIdx = some st →
        lookupSession (check_practice_answer_step sim rng sentences chat text
            sessions store).sessions chat =
          some { session with
                   words_practiced := session.words_practiced + 1
                   correct_answers := session.correct_answers + 1
                   current_word := Translation.default
                   current_sentence := some st
                   practice_type := .SentenceCompletion }) ∧
    ((gradeAnswer sim session (trimS (text.getD ""))).2 = true → rng.typeIsWord = true →
      get_weighted_translation (stepStoreAfter sim session text store) rng.sampleValue
          = none →
      (check_practice_answer_step sim rng sentences chat text sessions store).sessions
        = sessions) ∧
    ((gradeAnswer sim session (trimS (text.getD ""))).2 = true → rng.typeIsWord = false →
      get_random_sentence sentences rng.sentenceIdx = none →
      (check_practice_answer_step sim rng sentences chat text sessions store).sessions
        = sessions) := by
  refine ⟨?_, ?_, ?_, ?_, ?_⟩
  · intro hg
    simp [check_practice_answer_step, h, hg, lookupSession_insert]
  · intro hg htw next hnext
    simp only [stepStoreAfter, hg] at hnext
    simp [check_practice_answer_step, h, hg, htw, hnext, lookupSession_insert]
  · intro hg htw st hst
    simp [check_practice_answer_step, h, hg, htw, hst, lookupSession_insert]
  · intro hg htw hnone
    simp only [stepStoreAfter, hg] at hnone
    simp [check_practice_answer_step, h, hg, htw, hnone]
  · intro hg htw hnone
    simp [check_practice_answer_step, h, hg, htw, hnone]

/-- C6, witness for the amended theorem: a wrong answer in the session
`sessionRev` bumps only the counters. -/
theorem c6_amended_witness :
    lookupSession (check_practice_answer_step simZero rng0 [] 1 (some "nein")
        [(1, sessionRev)] []).sessions 1 =
      some { sessionRev with words_practiced := 1, wrong_answers := 1 } :=
  (c6_amended simZero rng0 [] 1 (some "nein") [(1, sessionRev)] [] sessionRev
    (by decide)).1 (by decide)

/-! ## Claim C8: session start -/

/-- C8, counterexample.  The claim says the start fails only when the
vocabulary store is empty.  With a non-empty store but an empty
practice-sentence list the start still fails with the user-visible
message and creates no session. -/
theorem c8_counterexample :
    start_practice_session rng0 [wordTischStol] [] 1 [] =
      ⟨[], [wordTischStol], [.noWordsAvailable]⟩ := by
  decide

/-- C8, amended.  Starting a session fails with a user-visible,
non-fatal message when the vocabulary store *or* the practice-sentence
list is empty.  Otherwise a coin picks the practice mode: word mode
draws via the weighted sampler and picks the direction by the fresh
coin; sentence mode picks a random sentence with the direction flag
`false`.  In both modes the stored session starts with all counters at
zero, and on non-empty inputs the draws always succeed. -/
theorem c8_amended (rng : StepRng) (translations : List Translation)
    (sentences : List PracticeSentence) (chat : Int)
    (sessions : List (Int × PracticeSession))
    (hstore : translations ≠ []) (hsent : sentences ≠ []) :
    (∀ sents, start_practice_session rng [] sents chat sessions =
      ⟨sessions, [], [.noWordsAvailable]⟩) ∧
    (start_practice_session rng translations [] chat sessions =
      ⟨sessions, translations, [.noWordsAvailable]⟩) ∧
    (∃ t, get_weighted_translation translations rng.sampleValue = some t) ∧
    (∃ st, get_random_sentence sentences rng.sentenceIdx = some st) ∧
    (rng.typeIsWord = true →
      ∀ t, get_weighted_translation translations rng.sampleValue = some t →
        lookupSession (start_practice_session rng translations sentences chat
            sessions).sessions chat =
          some { current_word := t, current_sentence := none
                 practice_type := .WordTranslation, expecting_russian := rng.dirCoin
                 words_practiced := 0, correct_answers := 0, wrong_answers := 0 } ∧
        (start_practice_session rng translations sentences chat sessions).msgs =
          [.practiceStarted, .question (format_practice_question t rng.dirCoin)]) ∧
    (rng.typeIsWord = false →
      ∀ st, get_random_sentence sentences rng.sentenceIdx = some st →
        lookupSession (start_practice_session rng translations sentences chat
            sessions).sessions chat =
          some { current_word := Translation.default, current_sentence := some st
                 practice_type := .SentenceCompletion, expecting_russian := false
                 words_practiced := 0, correct_answers := 0, wrong_answers := 0 } ∧
        (start_practice_session rng translations sentences chat sessions).msgs =
          [.practiceStarted, .question (sentenceQuestionText st)]) := by
  obtain ⟨a, as, rfl⟩ := List.exists_cons_of_ne_nil hstore
  obtain ⟨s0, ss, rfl⟩ := List.exists_cons_of_ne_nil hsent
  refine ⟨?_, ?_, get_weighted_some _ _ (by simp), get_random_sentence_some _ _ (by simp),
    ?_, ?_⟩
  · intro sents; simp [start_practice_session]
  · simp [start_practice_session]
  · intro htw t ht
    simp [start_practice_session, htw, ht, lookupSession_insert]
  · intro htw st hst
    simp [start_practice_session, htw, hst, lookupSession_insert]

/-- C8, witness for the amended theorem: the store `[tischR]` and the
sentence list `[sentenceFix]` with the word-mode coin. -/
theorem c8_amended_witness :
    lookupSession (start_practice_session rng0 [tischR] [sentenceFix] 1 []).sessions 1 =
      some { current_word := tischR, current_sentence := none
             practice_type := .WordTranslation, expecting_russian := rng0.dirCoin
             words_practiced := 0, correct_answers := 0, wrong_answers := 0 } ∧
    (start_practice_session rng0 [tischR] [sentenceFix] 1 []).msgs =
      [.practiceStarted, .question (format_practice_question tischR rng0.dirCoin)] := by
  have hGW : get_weighted_translation [tischR] rng0.sampleValue = some tischR := by
    have h02 : rng0.sampleValue - weight tischR ≤ 0 := by
      simp [rng0, weight, tischR]
    simp [get_weighted_translation, rouletteGo, h02]
  exact (c8_amended rng0 [tischR] [sentenceFix] 1 [] (by simp) (by simp)).2.2.2.2.1
    rfl tischR hGW

end Zungenrede
